import Mathlib

/-!
# Verification of the NbScrape IIIF stitcher (`src/iiif_stitcher.py`)

A shallow embedding of the script's three functions and proofs about them:

* `get_params_from_url` — extracts the item id and page label from the book URL
  (path and query string of the parsed URL are taken as the two inputs,
  `urllib.parse.urlparse` being standard-library plumbing).
* `get_iiif_details_from_manifest` — looks up a page canvas in the IIIF
  manifest and extracts the image-service id and the canvas dimensions.
* `download_and_stitch_iiif_image` — computes the tile grid, fetches each tile
  and pastes it into the output canvas.

Machine details that the claims do not touch (percent-decoding inside
`parse_qs`, the JPEG encoding performed by `PIL`) are not modelled; HTTP
transport is an explicit oracle argument.
-/

namespace NbScrape

/-! ## Python string helpers

Python's `str.split` is modelled on `List Char`.  The recursion consumes at
least one character per step, so the list length is used as structural fuel
(this keeps the functions kernel-computable); `pySplit` supplies enough fuel
that the fuel-exhausted branch is unreachable. -/

/-- Worker for Python `str.split(sep)` with a nonempty separator: scan left to
right, splitting at each non-overlapping occurrence of `sep`; `acc` holds the
reversed characters of the chunk currently being read. -/
def splitOnFuel (sep : List Char) : ℕ → List Char → List Char → List (List Char)
  | _, [], acc => [acc.reverse]
  | 0, l, acc => [acc.reverse ++ l]
  | fuel + 1, c :: rest, acc =>
    if sep.isPrefixOf (c :: rest) then
      acc.reverse :: splitOnFuel sep fuel (rest.drop (sep.length - 1)) []
    else
      splitOnFuel sep fuel rest (c :: acc)

/-- Python `str.split(sep)` (nonempty `sep`). -/
def pySplit (sep l : List Char) : List (List Char) :=
  splitOnFuel sep l.length l []

/-- `sep` occurs as a contiguous sublist of `l` (Python `sep in s`). -/
def hasSub (sep : List Char) : List Char → Bool
  | [] => sep.isEmpty
  | c :: rest => sep.isPrefixOf (c :: rest) || hasSub sep rest

/-- Model of Python `str.strip('/')`: drop leading and trailing `'/'`. -/
def stripChars (l : List Char) : List Char :=
  ((l.dropWhile (· = '/')).reverse.dropWhile (· = '/')).reverse

/-- Split a character list at every occurrence of the single character `c`
(Python `str.split(c)`). -/
def splitChar (c : Char) : List Char → List (List Char)
  | [] => [[]]
  | x :: rest =>
    if x = c then [] :: splitChar c rest
    else
      match splitChar c rest with
      | [] => [[x]]
      | chunk :: chunks => (x :: chunk) :: chunks

/-- Split at the first occurrence of `c` (Python `str.split(c, 1)` when it
succeeds); `none` when `c` does not occur. -/
def breakFirst (c : Char) : List Char → Option (List Char × List Char)
  | [] => none
  | x :: rest =>
    if x = c then some ([], rest)
    else (breakFirst c rest).map fun p => (x :: p.1, p.2)

/-- Model of Python `urllib.parse.parse_qs` as an association list in document
order: split the query string on `&`, split each field at its first `=`, and
drop fields with no `=` or with an empty value (`keep_blank_values` defaults to
false, so such fields do not reach the dict).  Percent-decoding is not
modelled.  Repeated keys keep document order, so looking up the first entry for
a key models `parse_qs(q)[key][0]`. -/
def parseQs (query : String) : List (String × String) :=
  (splitChar '&' query.toList).filterMap fun field =>
    match breakFirst '=' field with
    | none => none
    | some (name, value) =>
      if value = [] then none else some (String.mk name, String.mk value)

/-! ## Errors raised by the script

Each constructor records one `raise` site (or an uncaught exception) of the
script; the spec's taxonomy maps the `ValueError`s of URL parsing to
`MalformedInputError` and the manifest `ValueError` to `PageNotFoundError`. -/

inductive ScriptError
  /-- `ValueError("URL format is incorrect: Expected '/items/{item_id}' ...")` -/
  | valueErrorBadItemsPath
  /-- `ValueError("URL must contain a '?page=X' query parameter.")` -/
  | valueErrorMissingPage
  /-- `ValueError("Page label '...' not found in the Manifest ...")` -/
  | valueErrorPageNotFound
  /-- `KeyError("Could not find 'resource.service.@id' in the canvas object.")` -/
  | keyErrorMissingServiceId
  /-- `KeyError` from `canvas['width']` -/
  | keyErrorMissingWidth
  /-- `KeyError` from `canvas['height']` -/
  | keyErrorMissingHeight
  /-- uncaught `IndexError` from `[0]` on a present-but-empty list -/
  | indexError
  /-- `requests` exception: transport failure or `raise_for_status` -/
  | transportError
  /-- uncaught `ZeroDivisionError` from `width / tile_size` at line 85 -/
  | zeroDivisionError
  /-- uncaught `ValueError("Width and height must be >= 0")` from
  `Image.new('RGB', (width, height))` at line 91 when a dimension is negative -/
  | valueErrorImageNew
  /-- uncaught `ValueError` from `stitched_image.save(...)` at line 119 when the
  canvas has a zero dimension: an empty image cannot be written as JPEG -/
  | valueErrorEmptyImageSave
deriving DecidableEq, Repr

instance : DecidableEq (Except ScriptError (String × String)) := fun a b =>
  match a, b with
  | .ok x, .ok y => decidable_of_iff (x = y) (by simp)
  | .error x, .error y => decidable_of_iff (x = y) (by simp)
  | .ok _, .error _ => isFalse (by simp)
  | .error _, .ok _ => isFalse (by simp)

/-- The separator `'/items/'` used at line 24 of the source. -/
def itemsSep : List Char := '/' :: 'i' :: 't' :: 'e' :: 'm' :: 's' :: '/' :: []

/-- `get_params_from_url` (source lines 16–35), taking the path and query
components of the already-parsed URL.  Line 24 takes element `[1]` of
`path.split('/items/')` (the `IndexError` when it is missing becomes the
`ValueError` raised at line 26) and strips surrounding slashes; lines 29–33
take the first value of the `page` query parameter, defaulting to `''`, and
reject a falsy (empty) result. -/
def get_params_from_url (path query : String) : Except ScriptError (String × String) :=
  match (pySplit itemsSep path.toList)[1]? with
  | none => .error .valueErrorBadItemsPath
  | some part =>
    let item_id := String.mk (stripChars part)
    let page_number := ((parseQs query).lookup "page").getD ""
    if page_number = "" then .error .valueErrorMissingPage
    else .ok (item_id, page_number)

/-! ## Manifest model (`get_iiif_details_from_manifest`, source lines 37–69)

The JSON manifest is modelled structurally, with `Option` for fields the code
reads through `.get` (absent field ⇒ `none`) or through `[...]` indexing
(absent field ⇒ `KeyError`). -/

/-- The `resource.service` object of an image entry; `atId` is its `'@id'`. -/
structure Service where
  atId : Option String
deriving DecidableEq, Repr

/-- The `resource` object of an image entry. -/
structure Resource where
  service : Option Service
deriving DecidableEq, Repr

/-- One entry of a canvas's `images` list. -/
structure ImageEntry where
  resource : Option Resource
deriving DecidableEq, Repr

/-- One canvas (page) of a sequence. -/
structure Canvas where
  label : Option String
  images : Option (List ImageEntry)
  width : Option ℕ
  height : Option ℕ
deriving DecidableEq, Repr

/-- One entry of the manifest's `sequences` list. -/
structure Sequence where
  canvases : Option (List Canvas)
deriving DecidableEq, Repr

/-- The manifest document. -/
structure Manifest where
  sequences : Option (List Sequence)
deriving DecidableEq, Repr

/-- The triple returned by `get_iiif_details_from_manifest`. -/
structure IiifDetails where
  id : String
  width : ℕ
  height : ℕ
deriving DecidableEq, Repr

/-- `iiif_id_url.split('/')[-1]` (source line 61): the last `/`-separated
segment of the service URL. -/
def lastPathSegment (s : String) : String :=
  String.mk ((splitChar '/' s.toList).getLastD [])

/-- Extraction from one image entry plus the canvas dimensions, mirroring
source lines 54–67:
`canvas.get('images', [{}])[0].get('resource', {}).get('service', {})`'s
`'@id'` is looked up, a falsy value (`None` or `''`) raises the `KeyError` at
line 58, then `canvas['width']` and `canvas['height']` are read (raising
`KeyError` when absent). -/
def extractImage (img : ImageEntry) (width height : Option ℕ) :
    Except ScriptError IiifDetails :=
  let image_service := (img.resource.getD ⟨none⟩).service.getD ⟨none⟩
  match image_service.atId with
  | none => .error .keyErrorMissingServiceId
  | some iiif_id_url =>
    if iiif_id_url = "" then .error .keyErrorMissingServiceId
    else
      match width with
      | none => .error .keyErrorMissingWidth
      | some w =>
        match height with
        | none => .error .keyErrorMissingHeight
        | some h => .ok ⟨lastPathSegment iiif_id_url, w, h⟩

/-- One loop iteration's body for a canvas whose label matched (source lines
50–67): `canvas.get('images', [{}])[0]` defaults to the empty object when
`images` is absent, raises `IndexError` when `images` is `[]`, and otherwise
uses the first image entry. -/
def extractCanvas (c : Canvas) : Except ScriptError IiifDetails :=
  match c.images with
  | none => extractImage ⟨none⟩ c.width c.height
  | some [] => .error .indexError
  | some (img :: _) => extractImage img c.width c.height

/-- The `for canvas in ...` loop of source lines 49–69: the first canvas whose
`label` equals `page_label` is extracted (returning or raising from inside the
loop); if none matches, the `ValueError` at line 69 is raised. -/
def findCanvas : List Canvas → String → Except ScriptError IiifDetails
  | [], _ => .error .valueErrorPageNotFound
  | c :: rest, page_label =>
    if c.label = some page_label then extractCanvas c
    else findCanvas rest page_label

/-- `manifest.get('sequences', [{}])[0].get('canvases', [])` (source line 49):
a missing `sequences` defaults to `[{}]` whose head has no `canvases` (so the
loop body sees `[]`); an empty `sequences` list raises `IndexError`; otherwise
the canvases of the *first* sequence, defaulting to `[]`. -/
def firstSequenceCanvases (m : Manifest) : Except ScriptError (List Canvas) :=
  match m.sequences with
  | none => .ok []
  | some [] => .error .indexError
  | some (s :: _) => .ok (s.canvases.getD [])

/-- The pure part of `get_iiif_details_from_manifest` (source lines 48–69),
given the already-fetched manifest document. -/
def manifestLookup (m : Manifest) (page_label : String) : Except ScriptError IiifDetails := do
  findCanvas (← firstSequenceCanvases m) page_label

/-- The manifest URL built at source line 41. -/
def manifest_url (item_id : String) : String :=
  "https://api.nb.no/catalog/v1/iiif/" ++ item_id ++ "/manifest?profile=nbdigital"

/-- `get_iiif_details_from_manifest` (source lines 37–69): fetch the manifest
(`fetchManifest` models `requests.get` + `raise_for_status` + `.json()`) and
look the page up in it. -/
def get_iiif_details_from_manifest (fetchManifest : String → Except ScriptError Manifest)
    (item_id page_label : String) : Except ScriptError IiifDetails := do
  manifestLookup (← fetchManifest (manifest_url item_id)) page_label

/-- The resolution stage of `__main__` (source lines 127–130): URL parsing
followed by manifest resolution, instrumented with the number of network
requests issued.  `get_params_from_url` performs no I/O; the first (and only)
network call of resolution is the manifest fetch inside
`get_iiif_details_from_manifest`. -/
def resolve (fetchManifest : String → Except ScriptError Manifest)
    (path query : String) : ℕ × Except ScriptError IiifDetails :=
  match get_params_from_url path query with
  | .error e => (0, .error e)
  | .ok (item_id, page_label) =>
    (1, get_iiif_details_from_manifest fetchManifest item_id page_label)

/-! ## Tile grid and stitching (`download_and_stitch_iiif_image`, source lines 72–119)

The grid is modelled twice, faithfully to the source each time:

* over `ℕ`, for the regime the stitching claims quantify over (positive
  `width`, `height`, `tile_size`), where `math.ceil(width / tile_size)` equals
  `(width + tile_size - 1) / tile_size` in natural-number division (proved
  against the exact rational ceiling in the C2 theorem);
* over `ℤ` (`tilesZ`, `stitchZ` below), keeping Python's exact behaviour for
  zero or negative parameters: `math.ceil` of a true division, `range` of a
  possibly negative count, the `ZeroDivisionError` when `tile_size == 0`, the
  `ValueError` that `Image.new` raises at line 91 for a negative dimension
  (`"Width and height must be >= 0"`), and the `ValueError` raised at line 119
  when the completed canvas has a zero dimension, because an empty image
  cannot be written as JPEG.
-/

/-- `cols = math.ceil(width / tile_size)` (source line 85), for positive
`tile_size`. -/
def cols (width tile_size : ℕ) : ℕ := (width + tile_size - 1) / tile_size

/-- `rows = math.ceil(height / tile_size)` (source line 86), for positive
`tile_size`. -/
def rows (height tile_size : ℕ) : ℕ := (height + tile_size - 1) / tile_size

/-- One iteration of the doubly nested loop (source lines 93–98): grid
coordinates, pixel offsets `x_start = col_idx * tile_size`,
`y_start = row_idx * tile_size`, and the edge-clipped extent
`tile_w = min(tile_size, width - x_start)`, `tile_h = min(tile_size, height - y_start)`. -/
structure TileRequest where
  col : ℕ
  row : ℕ
  x : ℕ
  y : ℕ
  w : ℕ
  h : ℕ
deriving DecidableEq, Repr

/-- The tile request of grid cell `(col_idx, row_idx)` (source lines 95–98). -/
def mkTile (width height tile_size col_idx row_idx : ℕ) : TileRequest :=
  { col := col_idx, row := row_idx
    x := col_idx * tile_size, y := row_idx * tile_size
    w := min tile_size (width - col_idx * tile_size)
    h := min tile_size (height - row_idx * tile_size) }

/-- The row-major tile enumeration of the nested loops at source lines 93–94:
`row_idx` outer over `range(rows)`, `col_idx` inner over `range(cols)`. -/
def tiles (width height tile_size : ℕ) : List TileRequest :=
  (List.range (rows height tile_size)).flatMap fun row_idx =>
    (List.range (cols width tile_size)).map fun col_idx =>
      mkTile width height tile_size col_idx row_idx

/-- `BASE_IMAGE_RESOLVER_URL` (source line 13). -/
def BASE_IMAGE_RESOLVER_URL : String := "https://www.nb.no/services/image/resolver/"

/-- The region selector `f"{x_start},{y_start},{tile_w},{tile_h}"` (line 100). -/
def region (t : TileRequest) : String :=
  toString t.x ++ "," ++ toString t.y ++ "," ++ toString t.w ++ "," ++ toString t.h

/-- The size selector `f"{tile_w},"` (line 101). -/
def sizeSelector (t : TileRequest) : String := toString t.w ++ ","

/-- The fetch URL `f"{BASE_IMAGE_RESOLVER_URL}{image_id}/{region}/{size}/0/default.jpg"`
(source line 103). -/
def tile_url (image_id : String) (t : TileRequest) : String :=
  BASE_IMAGE_RESOLVER_URL ++ image_id ++ "/" ++ region t ++ "/" ++ sizeSelector t
    ++ "/0/default.jpg"

/-- A decoded raster image: a pixel buffer with its dimensions.  The pixel
value type `ℕ` stands for an RGB triple; `Image.new('RGB', (w, h))` fills with
value `0` (black). -/
structure PImage where
  width : ℕ
  height : ℕ
  px : ℕ → ℕ → ℕ

/-- `Image.new('RGB', (width, height))` (source line 91): a black canvas. -/
def Image_new (width height : ℕ) : PImage := ⟨width, height, fun _ _ => 0⟩

/-- `canvas.paste(im, (x, y))` (source line 112): writes `im`'s pixels at
offset `(x, y)` using `im`'s own dimensions, clipped at the canvas bounds (PIL
crops a source that overhangs the canvas); the canvas size is unchanged. -/
def paste (canvas : PImage) (im : PImage) (x y : ℕ) : PImage :=
  { canvas with
    px := fun i j =>
      if x ≤ i ∧ i < x + im.width ∧ y ≤ j ∧ j < y + im.height
          ∧ i < canvas.width ∧ j < canvas.height
      then im.px (i - x) (j - y)
      else canvas.px i j }

/-- The body of the fetch loop (source lines 107–116) for one tile: `fetch`
models `requests.get` + `raise_for_status` + `Image.open` keyed by the fetch
URL, returning `none` exactly when a `requests.exceptions.RequestException`
is raised, in which case the `except` branch `continue`s, leaving the canvas
unchanged.  On success the decoded image is pasted — the code checks nothing
about its dimensions. -/
def stitchStep (fetch : TileRequest → Option PImage) (canvas : PImage)
    (t : TileRequest) : PImage :=
  match fetch t with
  | some tile_img => paste canvas tile_img t.x t.y
  | none => canvas

/-- The whole stitch loop over the row-major tile enumeration, starting from
the black canvas (source lines 91–116). -/
def stitchLoop (fetch : TileRequest → Option PImage) (width height tile_size : ℕ) : PImage :=
  (tiles width height tile_size).foldl (stitchStep fetch) (Image_new width height)

/-- `download_and_stitch_iiif_image` (source lines 72–119) for positive
parameters: the network is the oracle `fetch : String → Option PImage`, keyed
by the tile URL the loop builds at line 103; the resulting `PImage` is the
canvas that line 119 saves. -/
def download_and_stitch_iiif_image (fetch : String → Option PImage)
    (image_id : String) (width height tile_size : ℕ) : PImage :=
  stitchLoop (fun t => fetch (tile_url image_id t)) width height tile_size

/-- A concrete fetch oracle for witnesses over the 2 × 1 grid of a 3 × 2 image
with tile size 2: the first cell's URL gets a correctly sized 2 × 2 image of
constant value 5; every other URL fails. -/
def witnessFetch1 : String → Option PImage := fun u =>
  if u = tile_url "id1" (mkTile 3 2 2 0 0) then some ⟨2, 2, fun _ _ => 5⟩ else none

/-- A fetch oracle whose every response decodes to a 1 × 1 image of value 7 —
deliberately *smaller* than any requested tile extent, exhibiting the absence
of a dimension check in the stitcher. -/
def witnessFetch2 : String → Option PImage := fun _ => some ⟨1, 1, fun _ _ => 7⟩

/-- An oracle differing from `witnessFetch1` only at a URL the stitcher never
builds. -/
def witnessFetch3 : String → Option PImage := fun u =>
  if u = "https://other.example/x" then some ⟨9, 9, fun _ _ => 9⟩ else witnessFetch1 u

/-! ## The `ℤ`-level grid, keeping Python's behaviour at non-positive inputs -/

/-- `math.ceil(a / b)` for integers, `b ≠ 0`: the exact ceiling of the true
division (Python's `/` on ints). -/
def pyCeilDiv (a b : ℤ) : ℤ := ⌈(a : ℚ) / (b : ℚ)⌉

/-- Python `range(n)` for a possibly non-positive `n`: empty unless `0 < n`. -/
def pyRange (n : ℤ) : List ℤ := (List.range n.toNat).map fun k => (k : ℤ)

/-- A tile request with integer fields, as Python would compute it. -/
structure TileRequestZ where
  x : ℤ
  y : ℤ
  w : ℤ
  h : ℤ
deriving DecidableEq, Repr

/-- The tile enumeration of source lines 85–98 over arbitrary integer inputs:
`tile_size == 0` raises `ZeroDivisionError` at line 85 (before the canvas is
allocated at line 91 and before any fetch); otherwise the nested loops run
over `range(cols)` and `range(rows)` exactly as in `tiles`. -/
def tilesZ (width height tile_size : ℤ) :
    Except ScriptError (List TileRequestZ) :=
  if tile_size = 0 then .error .zeroDivisionError
  else
    .ok <| (pyRange (pyCeilDiv height tile_size)).flatMap fun row_idx =>
      (pyRange (pyCeilDiv width tile_size)).map fun col_idx =>
        { x := col_idx * tile_size, y := row_idx * tile_size
          w := min tile_size (width - col_idx * tile_size)
          h := min tile_size (height - row_idx * tile_size) }

/-- A decoded image with integer-indexed pixels, for the `ℤ`-level run. -/
structure PImageZ where
  width : ℤ
  height : ℤ
  px : ℤ → ℤ → ℕ

/-- The always-failing fetch oracle for the `ℤ`-level run, used in witnesses. -/
def witnessFetchZ : TileRequestZ → Option PImageZ := fun _ => none

/-- The tile rectangle covering a pixel, as a decidable predicate
(`x ≤ i < x + w` and `y ≤ j < y + h`). -/
def coversPixel (t : TileRequest) (i j : ℕ) : Prop :=
  t.x ≤ i ∧ i < t.x + t.w ∧ t.y ≤ j ∧ j < t.y + t.h

instance (t : TileRequest) (i j : ℕ) : Decidable (coversPixel t i j) := by
  unfold coversPixel
  infer_instance

/-! ## The spec's URL grammar -/

/-- Modelled from the spec: the fixed URL grammar
`{baseResolverURL}/{imageId}/{x},{y},{w},{h}/{w},/0/default.{format}`
(§4.2 step 4 and §6 of the spec), as a function of its placeholders. -/
def specTileUrl (baseResolverURL imageId : String) (x y w h : ℕ) (format : String) : String :=
  baseResolverURL ++ "/" ++ imageId ++ "/" ++
    toString x ++ "," ++ toString y ++ "," ++ toString w ++ "," ++ toString h ++ "/" ++
    toString w ++ "," ++ "/0/default." ++ format

/-- The whole run of `download_and_stitch_iiif_image` over arbitrary integer
inputs, in the source's statement order.  Line 85 raises `ZeroDivisionError`
when `tile_size = 0` (inside `tilesZ`); line 91's
`Image.new('RGB', (width, height))` raises `ValueError` when a dimension is
negative — before any fetch; lines 93–116 run the fetch loop over the
enumerated tiles, pasting each successfully decoded image at its offset with
the image's own dimensions, clipped at the canvas bounds (`Image.new` fills
with the background 0); line 119's `save` then raises `ValueError` when the
canvas has a zero dimension (an empty image cannot be encoded as JPEG), and
otherwise the run completes with the saved canvas pixels. -/
def stitchZ (fetch : TileRequestZ → Option PImageZ)
    (width height tile_size : ℤ) : Except ScriptError (ℤ → ℤ → ℕ) := do
  let ts ← tilesZ width height tile_size
  if width < 0 ∨ height < 0 then
    .error .valueErrorImageNew
  else
    let canvas := ts.foldl
      (fun canvas t =>
        match fetch t with
        | some tile_img => fun i j =>
            if t.x ≤ i ∧ i < t.x + tile_img.width ∧ t.y ≤ j ∧ j < t.y + tile_img.height
                ∧ 0 ≤ i ∧ i < width ∧ 0 ≤ j ∧ j < height
            then tile_img.px (i - t.x) (j - t.y) else canvas i j
        | none => canvas)
      (fun _ _ => 0)
    if width = 0 ∨ height = 0 then .error .valueErrorEmptyImageSave
    else .ok canvas

/-! ## Sanity checks of the URL-parameter model -/

example :
    get_params_from_url "/items/5763a" "page=41" = .ok ("5763a", "41") := by decide

example : get_params_from_url "/books/abc" "page=41" = .error .valueErrorBadItemsPath := by
  decide

example : get_params_from_url "/items/abc" "page=" = .error .valueErrorMissingPage := by
  decide

example : get_params_from_url "/items/" "page=3" = .ok ("", "3") := by decide

/-! ## Lemmas about the string helpers -/

theorem splitOnFuel_length_pos (sep : List Char) :
    ∀ (n : ℕ) (l acc : List Char), 1 ≤ (splitOnFuel sep n l acc).length := by
  intro n
  induction n with
  | zero =>
    intro l acc
    cases l <;> simp [splitOnFuel]
  | succ n ih =>
    intro l acc
    cases l with
    | nil => simp [splitOnFuel]
    | cons c rest =>
      rw [splitOnFuel]
      split
      · simp
      · exact ih rest (c :: acc)

theorem splitOnFuel_of_not_hasSub (sep : List Char) :
    ∀ (n : ℕ) (l acc : List Char), l.length ≤ n → hasSub sep l = false →
      splitOnFuel sep n l acc = [acc.reverse ++ l] := by
  intro n
  induction n with
  | zero =>
    intro l acc hlen _
    obtain rfl : l = [] := List.length_eq_zero.mp (Nat.le_zero.mp hlen)
    simp [splitOnFuel]
  | succ n ih =>
    intro l acc hlen hsub
    cases l with
    | nil => simp [splitOnFuel]
    | cons c rest =>
      rw [hasSub] at hsub
      rw [Bool.or_eq_false_iff] at hsub
      have hlen' : rest.length ≤ n := by
        simp only [List.length_cons] at hlen
        omega
      rw [splitOnFuel, if_neg (by simp [hsub.1])]
      rw [ih rest (c :: acc) hlen' hsub.2]
      simp

theorem splitOnFuel_append_sep (sep : List Char) (hsep : sep ≠ []) :
    ∀ (n : ℕ) (pre acc : List Char), (pre ++ sep).length ≤ n →
      hasSub sep (pre ++ sep.dropLast) = false →
      splitOnFuel sep n (pre ++ sep) acc = [acc.reverse ++ pre, []] := by
  intro n
  induction n with
  | zero =>
    intro pre acc hlen _
    exfalso
    have : 1 ≤ (pre ++ sep).length := by
      simp only [List.length_append]
      have : 1 ≤ sep.length := Nat.one_le_iff_ne_zero.mpr (by simpa using hsep)
      omega
    omega
  | succ n ih =>
    intro pre acc hlen hsub
    cases pre with
    | nil =>
      obtain ⟨s, stail, rfl⟩ : ∃ s stail, sep = s :: stail := by
        cases sep with
        | nil => exact absurd rfl hsep
        | cons s stail => exact ⟨s, stail, rfl⟩
      simp only [List.nil_append]
      rw [splitOnFuel, if_pos (List.isPrefixOf_iff_prefix.mpr (List.prefix_refl _))]
      have hdrop : stail.drop ((s :: stail).length - 1) = [] := by
        simp [List.drop_length]
      rw [hdrop]
      simp [splitOnFuel]
    | cons p pre' =>
      have hsub' : hasSub sep (pre' ++ sep.dropLast) = false := by
        rw [List.cons_append, hasSub, Bool.or_eq_false_iff] at hsub
        exact hsub.2
      have hpref : ¬ sep <+: (p :: (pre' ++ sep)) := by
        intro hprefix
        obtain ⟨u, hu⟩ := hprefix
        have hune : u ≠ [] := by
          intro h0
          subst h0
          have := congrArg List.length hu
          simp only [List.append_nil, List.length_cons, List.length_append] at this
          omega
        have hdl : (p :: (pre' ++ sep)).dropLast = sep ++ u.dropLast := by
          rw [← hu, List.dropLast_append_of_ne_nil _ hune]
        have hdl2 : (p :: (pre' ++ sep)).dropLast = p :: (pre' ++ sep.dropLast) := by
          have h3 := List.dropLast_append_of_ne_nil (p :: pre') hsep
          simpa using h3
        have hpref2 : sep <+: p :: (pre' ++ sep.dropLast) := by
          rw [← hdl2, hdl]
          exact ⟨u.dropLast, rfl⟩
        have hTrue : hasSub sep (p :: (pre' ++ sep.dropLast)) = true := by
          rw [hasSub, Bool.or_eq_true_iff]
          left
          exact List.isPrefixOf_iff_prefix.mpr hpref2
        rw [List.cons_append, hTrue] at hsub
        exact Bool.true_eq_false.mp hsub
      have hlen' : (pre' ++ sep).length ≤ n := by
        simp only [List.cons_append, List.length_cons] at hlen
        omega
      rw [List.cons_append, splitOnFuel,
        if_neg (by simpa [List.isPrefixOf_iff_prefix] using hpref)]
      rw [ih pre' (p :: acc) hlen' hsub']
      simp

theorem splitOnFuel_two_le_iff (sep : List Char) (hsep : sep ≠ []) :
    ∀ (n : ℕ) (l acc : List Char), l.length ≤ n →
      (2 ≤ (splitOnFuel sep n l acc).length ↔ hasSub sep l = true) := by
  intro n
  induction n with
  | zero =>
    intro l acc hlen
    obtain rfl : l = [] := List.length_eq_zero.mp (Nat.le_zero.mp hlen)
    simp [splitOnFuel, hasSub, hsep]
  | succ n ih =>
    intro l acc hlen
    cases l with
    | nil => simp [splitOnFuel, hasSub, hsep]
    | cons c rest =>
      have hlen' : rest.length ≤ n := by
        simp only [List.length_cons] at hlen
        omega
      rw [splitOnFuel, hasSub]
      by_cases hT : sep.isPrefixOf (c :: rest) = true
      · rw [if_pos hT, hT]
        simp only [Bool.true_or, iff_true, List.length_cons]
        have := splitOnFuel_length_pos sep n (rest.drop (sep.length - 1)) []
        omega
      · rw [if_neg (by simpa using hT), ih rest (c :: acc) hlen']
        simp [Bool.eq_false_iff.mpr hT]

theorem pySplit_getElemOne_isSome_iff (sep : List Char) (hsep : sep ≠ []) (l : List Char) :
    (pySplit sep l)[1]?.isSome = hasSub sep l := by
  rcases h : hasSub sep l with _ | _
  · have heq := splitOnFuel_of_not_hasSub sep l.length l [] le_rfl h
    rw [pySplit, heq]
    simp
  · have h2 := (splitOnFuel_two_le_iff sep hsep l.length l [] le_rfl).mpr h
    rw [pySplit]
    rw [List.getElem?_eq_getElem (by omega)]
    rfl

/-- Every value stored by `parseQs` is nonempty. -/
theorem parseQs_value_ne_empty (query : String) :
    ∀ kv ∈ parseQs query, kv.2 ≠ "" := by
  intro kv hkv
  simp only [parseQs, List.mem_filterMap] at hkv
  obtain ⟨field, _, hf⟩ := hkv
  rcases hb : breakFirst '=' field with _ | ⟨name, value⟩
  · rw [hb] at hf; simp at hf
  · rw [hb] at hf
    by_cases hv : value = []
    · simp [hv] at hf
    · simp only [if_neg hv] at hf
      obtain ⟨rfl⟩ := Option.some_inj.mp hf
      simpa [String.ext_iff] using hv

/-- If no (necessarily nonempty) value is stored for a key, its lookup is `none`. -/
theorem lookup_eq_none_of_no_entry {l : List (String × String)} {k : String}
    (h : ∀ v, (k, v) ∈ l → False) : l.lookup k = none := by
  induction l with
  | nil => rfl
  | cons p rest ih =>
    obtain ⟨a, b⟩ := p
    simp only [List.lookup]
    rw [show (k == a) = false by
      simp only [beq_eq_false_iff_ne, ne_eq]
      intro he; exact h b (by simp [← he])]
    exact ih fun v hv => h v (List.mem_cons_of_mem _ hv)

/-! ## Lemmas about the tile grid -/

theorem cols_eq_ceilDiv (width tile_size : ℕ) : cols width tile_size = width ⌈/⌉ tile_size := rfl

theorem le_mul_cols {width tile_size : ℕ} (hT : 0 < tile_size) :
    width ≤ tile_size * cols width tile_size := by
  rw [cols_eq_ceilDiv]
  simpa [smul_eq_mul] using le_smul_ceilDiv (b := width) hT

theorem cols_pos {width tile_size : ℕ} (hT : 0 < tile_size) (hW : 0 < width) :
    0 < cols width tile_size := by
  rcases Nat.eq_zero_or_pos (cols width tile_size) with h0 | h
  · have := @le_mul_cols width tile_size hT
    rw [h0] at this
    omega
  · exact h

theorem mul_pred_cols_lt {width tile_size : ℕ} (hT : 0 < tile_size) (hW : 0 < width) :
    tile_size * (cols width tile_size - 1) < width := by
  by_contra hle
  push_neg at hle
  have h1 : cols width tile_size ≤ cols width tile_size - 1 := by
    rw [cols_eq_ceilDiv]
    exact (ceilDiv_le_iff_le_mul hT).mpr hle
  have h0 : 0 < cols width tile_size := cols_pos hT hW
  omega

/-- For `i < width` and positive `tile_size`, column cell `c` covers abscissa
`i` precisely when `c = i / tile_size`. -/
theorem cell_covers_iff {width tile_size : ℕ} (hT : 0 < tile_size) {i c : ℕ} (hi : i < width) :
    (c * tile_size ≤ i ∧ i < c * tile_size + min tile_size (width - c * tile_size)) ↔
      c = i / tile_size := by
  constructor
  · rintro ⟨h1, h2⟩
    have hmin : min tile_size (width - c * tile_size) ≤ tile_size := Nat.min_le_left _ _
    have h2' : i < (c + 1) * tile_size := by
      rw [Nat.add_one_mul]
      omega
    exact (Nat.div_eq_of_lt_le h1 h2').symm
  · rintro rfl
    refine ⟨Nat.div_mul_le_self i tile_size, ?_⟩
    rw [← min_add_add_left]
    have hdm := Nat.div_add_mod i tile_size
    have hmod := Nat.mod_lt i hT
    have hc : i / tile_size * tile_size = tile_size * (i / tile_size) := Nat.mul_comm _ _
    refine lt_min (by omega) (by omega)

/-- Membership in the tile enumeration, unfolded. -/
theorem mem_tiles_iff {width height tile_size : ℕ} {t : TileRequest} :
    t ∈ tiles width height tile_size ↔
      ∃ r < rows height tile_size, ∃ c < cols width tile_size,
        t = mkTile width height tile_size c r := by
  simp only [tiles, List.mem_flatMap, List.mem_map, List.mem_range]
  constructor
  · rintro ⟨r, hr, c, hc, rfl⟩
    exact ⟨r, hr, c, hc, rfl⟩
  · rintro ⟨r, hr, c, hc, rfl⟩
    exact ⟨r, hr, c, hc, rfl⟩

/-- Every enumerated tile's rectangle lies inside the pixel domain and is
nonempty (positive parameters). -/
theorem tiles_in_domain {width height tile_size : ℕ} (hT : 0 < tile_size)
    (hW : 0 < width) (hH : 0 < height) :
    ∀ t ∈ tiles width height tile_size,
      t.x + t.w ≤ width ∧ t.y + t.h ≤ height ∧ 0 < t.w ∧ 0 < t.h := by
  intro t ht
  obtain ⟨r, hr, c, hc, rfl⟩ := mem_tiles_iff.mp ht
  have hcx : c * tile_size < width := by
    have h1 : c ≤ cols width tile_size - 1 := by omega
    have h2 : c * tile_size ≤ (cols width tile_size - 1) * tile_size :=
      Nat.mul_le_mul_right _ h1
    have h3 := mul_pred_cols_lt hT hW
    rw [Nat.mul_comm] at h3
    omega
  have hry : r * tile_size < height := by
    have hr' : r < cols height tile_size := hr
    have h1 : r ≤ cols height tile_size - 1 := by omega
    have h2 : r * tile_size ≤ (cols height tile_size - 1) * tile_size :=
      Nat.mul_le_mul_right _ h1
    have h3 := @mul_pred_cols_lt height tile_size hT hH
    rw [Nat.mul_comm] at h3
    omega
  refine ⟨?_, ?_, ?_, ?_⟩ <;> simp only [mkTile] <;> omega

/-- Counting the occurrences of a fixed value in `List.range`. -/
theorem countP_range_eq (n k : ℕ) :
    (List.range n).countP (fun c => decide (c = k)) = if k < n then 1 else 0 := by
  induction n with
  | zero => simp
  | succ n ih =>
    rw [List.range_succ, List.countP_append, ih]
    rcases Nat.lt_trichotomy k n with h | h | h
    · simp [List.countP_cons, h, Nat.lt_succ_of_lt h, Nat.ne_of_gt h]
    · subst h
      simp [List.countP_cons, Nat.lt_succ_self, Nat.lt_irrefl]
    · have h1 : ¬ k < n := by omega
      have h2 : ¬ k < n + 1 := by omega
      simp [List.countP_cons, h1, h2, Nat.ne_of_lt h]

/-- Summing an indicator over `List.range`. -/
theorem sum_range_indicator (n k : ℕ) :
    (((List.range n).map fun r => if r = k then 1 else 0).sum : ℕ) = if k < n then 1 else 0 := by
  induction n with
  | zero => simp
  | succ n ih =>
    rw [List.range_succ, List.map_append, List.sum_append, ih]
    rcases Nat.lt_trichotomy k n with h | h | h
    · simp [h, Nat.lt_succ_of_lt h, Nat.ne_of_gt h]
    · subst h
      simp [Nat.lt_succ_self, Nat.lt_irrefl]
    · have h1 : ¬ k < n := by omega
      have h2 : ¬ k < n + 1 := by omega
      simp [h1, h2, Nat.ne_of_lt h]

/-- A pixel of the domain lies in the rectangle of grid cell `(c, r)` iff
`(c, r) = (i / tile_size, j / tile_size)`. -/
theorem coversPixel_mkTile_iff {width height tile_size : ℕ} (hT : 0 < tile_size)
    {i j : ℕ} (hi : i < width) (hj : j < height) (c r : ℕ) :
    coversPixel (mkTile width height tile_size c r) i j ↔
      (c = i / tile_size ∧ r = j / tile_size) := by
  unfold coversPixel mkTile
  constructor
  · rintro ⟨h1, h2, h3, h4⟩
    exact ⟨(cell_covers_iff hT hi).mp ⟨h1, h2⟩, (cell_covers_iff hT hj).mp ⟨h3, h4⟩⟩
  · rintro ⟨hc, hr⟩
    obtain ⟨a1, a2⟩ := (cell_covers_iff hT hi).mpr hc
    obtain ⟨b1, b2⟩ := (cell_covers_iff hT hj).mpr hr
    exact ⟨a1, a2, b1, b2⟩

/-- Exactly one enumerated tile rectangle covers each pixel of the domain. -/
theorem countP_tiles_eq_one {width height tile_size : ℕ} (hT : 0 < tile_size)
    {i j : ℕ} (hi : i < width) (hj : j < height) :
    (tiles width height tile_size).countP (fun t => decide (coversPixel t i j)) = 1 := by
  rw [tiles, List.countP_flatMap]
  have hinner : ∀ r : ℕ,
      ((List.countP fun t => decide (coversPixel t i j)) ∘ fun row_idx =>
          (List.range (cols width tile_size)).map fun col_idx =>
            mkTile width height tile_size col_idx row_idx) r =
        if r = j / tile_size then 1 else 0 := by
    intro r
    simp only [Function.comp]
    rw [List.countP_map]
    have hcg : (List.range (cols width tile_size)).countP
        ((fun t => decide (coversPixel t i j)) ∘ fun c => mkTile width height tile_size c r) =
        (List.range (cols width tile_size)).countP
          (fun c => decide (c = i / tile_size) && decide (r = j / tile_size)) := by
      refine List.countP_congr fun c _ => ?_
      simp only [Function.comp]
      rw [Bool.eq_iff_iff]
      simp [coversPixel_mkTile_iff hT hi hj]
    rw [hcg]
    rcases eq_or_ne r (j / tile_size) with hr | hr
    · rw [if_pos hr]
      have hone : (List.range (cols width tile_size)).countP
          (fun c => decide (c = i / tile_size) && decide (r = j / tile_size)) =
          (List.range (cols width tile_size)).countP (fun c => decide (c = i / tile_size)) := by
        refine List.countP_congr fun c _ => ?_
        simp [hr]
      rw [hone, countP_range_eq]
      have hidiv : i / tile_size < cols width tile_size := by
        have h1 := @le_mul_cols width tile_size hT
        exact Nat.div_lt_of_lt_mul (by omega)
      rw [if_pos hidiv]
    · rw [if_neg hr]
      have hzero : (List.range (cols width tile_size)).countP
          (fun c => decide (c = i / tile_size) && decide (r = j / tile_size)) = 0 := by
        rw [List.countP_eq_zero]
        intro c _
        simp [hr]
      exact hzero
  rw [List.map_congr_left (fun r _ => hinner r)]
  rw [sum_range_indicator]
  have hjdiv : j / tile_size < rows height tile_size := by
    have h1 : height ≤ tile_size * rows height tile_size := @le_mul_cols height tile_size hT
    exact Nat.div_lt_of_lt_mul (by omega)
  rw [if_pos hjdiv]

/-! ## Lemmas about the stitch loop -/

/-- Pasting never changes the canvas dimensions, so neither does the loop. -/
theorem foldl_stitchStep_dims (F : TileRequest → Option PImage) :
    ∀ (l : List TileRequest) (c : PImage),
      (l.foldl (stitchStep F) c).width = c.width ∧
        (l.foldl (stitchStep F) c).height = c.height := by
  intro l
  induction l with
  | nil => intro c; exact ⟨rfl, rfl⟩
  | cons t rest ih =>
    intro c
    rw [List.foldl_cons]
    have hrest := ih (stitchStep F c t)
    have hstep : (stitchStep F c t).width = c.width ∧ (stitchStep F c t).height = c.height := by
      unfold stitchStep
      cases F t <;> simp [paste]
    exact ⟨hrest.1.trans hstep.1, hrest.2.trans hstep.2⟩

/-- A pixel covered by no tile of `l` (and overhung by no pasted image, which
the sub-dimension hypothesis rules out) is left unchanged by the loop. -/
theorem foldl_stitchStep_px_untouched (F : TileRequest → Option PImage) (i j : ℕ) :
    ∀ (l : List TileRequest) (c : PImage),
      (∀ t ∈ l, ∀ img, F t = some img → img.width ≤ t.w ∧ img.height ≤ t.h) →
      (∀ t ∈ l, ¬ coversPixel t i j) →
      (l.foldl (stitchStep F) c).px i j = c.px i j := by
  intro l
  induction l with
  | nil => intro c _ _; rfl
  | cons t rest ih =>
    intro c hsub hnc
    rw [List.foldl_cons,
      ih (stitchStep F c t) (fun u hu => hsub u (List.mem_cons_of_mem _ hu))
        (fun u hu => hnc u (List.mem_cons_of_mem _ hu))]
    unfold stitchStep
    cases hF : F t with
    | none => rfl
    | some img =>
      have hw := hsub t (List.mem_cons_self _ _) img hF
      have hcond : ¬(t.x ≤ i ∧ i < t.x + img.width ∧ t.y ≤ j ∧ j < t.y + img.height
          ∧ i < c.width ∧ j < c.height) := by
        rintro ⟨h1, h2, h3, h4, -, -⟩
        exact hnc t (List.mem_cons_self _ _) ⟨h1, by omega, h3, by omega⟩
      simp only [paste]
      rw [if_neg hcond]

/-- Characterization of the final canvas at a pixel covered by the enumerated
tile `t₀`, assuming every fetched image fits inside its cell. -/
theorem stitchLoop_px_char {width height tile_size : ℕ} {F : TileRequest → Option PImage}
    (hT : 0 < tile_size) (hW : 0 < width) (hH : 0 < height)
    (hsub : ∀ t ∈ tiles width height tile_size, ∀ img, F t = some img →
      img.width ≤ t.w ∧ img.height ≤ t.h)
    {t₀ : TileRequest} (ht₀ : t₀ ∈ tiles width height tile_size)
    {i j : ℕ} (hcov : coversPixel t₀ i j) :
    (stitchLoop F width height tile_size).px i j =
      match F t₀ with
      | none => 0
      | some img =>
        if i < t₀.x + img.width ∧ j < t₀.y + img.height then img.px (i - t₀.x) (j - t₀.y)
        else 0 := by
  have hdom := tiles_in_domain hT hW hH t₀ ht₀
  have hi : i < width := by
    obtain ⟨h1, h2, -, -⟩ := hcov
    omega
  have hj : j < height := by
    obtain ⟨-, -, h3, h4⟩ := hcov
    omega
  have hcount := countP_tiles_eq_one hT hi hj
  obtain ⟨l₁, l₂, hsplit⟩ := List.append_of_mem ht₀
  have hcount' : l₁.countP (fun t => decide (coversPixel t i j)) = 0 ∧
      l₂.countP (fun t => decide (coversPixel t i j)) = 0 := by
    rw [hsplit, List.countP_append, List.countP_cons] at hcount
    simp only [decide_eq_true hcov, if_true] at hcount
    omega
  have hnc₁ : ∀ t ∈ l₁, ¬ coversPixel t i j := by
    intro t ht
    have := List.countP_eq_zero.mp hcount'.1 t ht
    simpa using this
  have hnc₂ : ∀ t ∈ l₂, ¬ coversPixel t i j := by
    intro t ht
    have := List.countP_eq_zero.mp hcount'.2 t ht
    simpa using this
  have hmem₁ : ∀ u ∈ l₁, u ∈ tiles width height tile_size := by
    intro u hu
    rw [hsplit]
    exact List.mem_append_left _ hu
  have hmem₂ : ∀ u ∈ l₂, u ∈ tiles width height tile_size := by
    intro u hu
    rw [hsplit]
    exact List.mem_append_right _ (List.mem_cons_of_mem _ hu)
  rw [stitchLoop, hsplit, List.foldl_append, List.foldl_cons]
  set C₁ := l₁.foldl (stitchStep F) (Image_new width height) with hC₁
  have hdims := foldl_stitchStep_dims F l₁ (Image_new width height)
  have hCw : C₁.width = width := hdims.1
  have hCh : C₁.height = height := hdims.2
  have hCpx : C₁.px i j = 0 := by
    rw [hC₁, foldl_stitchStep_px_untouched F i j l₁ (Image_new width height)
      (fun u hu => hsub u (hmem₁ u hu)) hnc₁]
    rfl
  rw [foldl_stitchStep_px_untouched F i j l₂ (stitchStep F C₁ t₀)
    (fun u hu => hsub u (hmem₂ u hu)) hnc₂]
  unfold stitchStep
  cases hF : F t₀ with
  | none => exact hCpx
  | some img =>
    simp only [paste]
    by_cases hc : i < t₀.x + img.width ∧ j < t₀.y + img.height
    · rw [if_pos ⟨hcov.1, hc.1, hcov.2.2.1, hc.2, by omega, by omega⟩, if_pos hc]
    · rw [if_neg, if_neg hc]
      · exact hCpx
      · rintro ⟨-, h2, -, h4, -, -⟩
        exact hc ⟨h2, h4⟩

/-- Two fetch oracles that agree on a list of tiles produce identical folds. -/
theorem foldl_stitchStep_congr (F₁ F₂ : TileRequest → Option PImage) :
    ∀ (l : List TileRequest) (c : PImage), (∀ t ∈ l, F₁ t = F₂ t) →
      l.foldl (stitchStep F₁) c = l.foldl (stitchStep F₂) c := by
  intro l
  induction l with
  | nil => intro c _; rfl
  | cons t rest ih =>
    intro c hag
    rw [List.foldl_cons, List.foldl_cons]
    have hstep : stitchStep F₁ c t = stitchStep F₂ c t := by
      unfold stitchStep
      rw [hag t (List.mem_cons_self _ _)]
    rw [hstep]
    exact ih _ fun u hu => hag u (List.mem_cons_of_mem _ hu)

/-! ## Lemmas about the `ℤ`-level grid -/

theorem pyRange_of_nonpos {n : ℤ} (h : n ≤ 0) : pyRange n = [] := by
  rw [pyRange, Int.toNat_of_nonpos h]
  rfl

theorem pyCeilDiv_nonpos_of_nonneg_of_neg {a b : ℤ} (ha : 0 ≤ a) (hb : b < 0) :
    pyCeilDiv a b ≤ 0 := by
  rw [pyCeilDiv]
  rw [show (0 : ℤ) = ((0 : ℤ)) from rfl]
  refine Int.ceil_le.mpr ?_
  push_cast
  exact div_nonpos_of_nonneg_of_nonpos (by exact_mod_cast ha) (by exact_mod_cast hb.le)

theorem pyCeilDiv_nonpos_of_nonpos_of_pos {a b : ℤ} (ha : a ≤ 0) (hb : 0 < b) :
    pyCeilDiv a b ≤ 0 := by
  rw [pyCeilDiv]
  refine Int.ceil_le.mpr ?_
  push_cast
  exact div_nonpos_of_nonpos_of_nonneg (by exact_mod_cast ha) (by exact_mod_cast hb.le)

/-- With a negative tile size and nonnegative dimensions the row count is
nonpositive, so no tile is enumerated — and no error is raised. -/
theorem tilesZ_neg_tile_size {width height tile_size : ℤ} (hts : tile_size < 0)
    (hh : 0 ≤ height) :
    tilesZ width height tile_size = .ok [] := by
  rw [tilesZ, if_neg (by omega)]
  rw [pyRange_of_nonpos (pyCeilDiv_nonpos_of_nonneg_of_neg hh hts)]
  rfl

/-- With a positive tile size but a nonpositive width or height, no tile is
enumerated — and no error is raised. -/
theorem tilesZ_nonpos_dim {width height tile_size : ℤ} (hts : 0 < tile_size)
    (hwh : width ≤ 0 ∨ height ≤ 0) :
    tilesZ width height tile_size = .ok [] := by
  rw [tilesZ, if_neg (by omega)]
  rcases hwh with hw | hh
  · rw [pyRange_of_nonpos (pyCeilDiv_nonpos_of_nonpos_of_pos hw hts)]
    simp
  · rw [pyRange_of_nonpos (pyCeilDiv_nonpos_of_nonpos_of_pos hh hts)]
    rfl

/-- The natural-number grid count is the exact rational ceiling that
`math.ceil(width / tile_size)` computes. -/
theorem cols_cast_eq_pyCeilDiv {width tile_size : ℕ} (hT : 0 < tile_size) :
    (cols width tile_size : ℤ) = pyCeilDiv width tile_size := by
  rw [pyCeilDiv]
  symm
  rw [Int.ceil_eq_iff]
  have hTQ : (0 : ℚ) < (tile_size : ℚ) := by exact_mod_cast hT
  push_cast
  constructor
  · rw [lt_div_iff₀ hTQ]
    rcases Nat.eq_zero_or_pos width with hw0 | hw
    · subst hw0
      have hc0 : cols 0 tile_size = 0 := by
        rw [cols]
        exact Nat.div_eq_of_lt (by omega)
      rw [hc0]
      push_cast
      nlinarith [hTQ]
    · have h := mul_pred_cols_lt hT hw
      have h1 : 1 ≤ cols width tile_size := cols_pos hT hw
      have h2 : ((cols width tile_size - 1 : ℕ) : ℚ) * (tile_size : ℚ) < (width : ℚ) := by
        exact_mod_cast (by rwa [Nat.mul_comm] at h :
          (cols width tile_size - 1) * tile_size < width)
      rw [Nat.cast_sub h1, Nat.cast_one] at h2
      exact h2
  · rw [div_le_iff₀ hTQ]
    have h := @le_mul_cols width tile_size hT
    exact_mod_cast (by rwa [Nat.mul_comm] at h :
      width ≤ cols width tile_size * tile_size)

/-! ## The claims -/

/-- **C1.** For every `fullWidth > 0`, `fullHeight > 0` and `tileSize > 0`,
the tile rectangles enumerated by the stitcher — top-left
`(col*tileSize, row*tileSize)`, extent clipped by `min` at the edges, for all
grid cells — exactly partition `[0, fullWidth) × [0, fullHeight)`: every pixel
of the domain lies in exactly one enumerated rectangle (counted with
multiplicity over the enumeration: no gaps, no overlaps), and every enumerated
rectangle lies inside the domain. -/
theorem c1_tile_partition {width height tile_size : ℕ}
    (hW : 0 < width) (hH : 0 < height) (hT : 0 < tile_size) :
    (∀ i < width, ∀ j < height,
      (tiles width height tile_size).countP (fun t => decide (coversPixel t i j)) = 1) ∧
    (∀ t ∈ tiles width height tile_size, t.x + t.w ≤ width ∧ t.y + t.h ≤ height) :=
  ⟨fun _ hi _ hj => countP_tiles_eq_one hT hi hj,
   fun t ht => ⟨(tiles_in_domain hT hW hH t ht).1, (tiles_in_domain hT hW hH t ht).2.1⟩⟩

/-- Witness for C1 at `width = 3`, `height = 2`, `tile_size = 2`. -/
theorem c1_tile_partition_witness :
    (∀ i < 3, ∀ j < 2,
      (tiles 3 2 2).countP (fun t => decide (coversPixel t i j)) = 1) ∧
    (∀ t ∈ tiles 3 2 2, t.x + t.w ≤ 3 ∧ t.y + t.h ≤ 2) :=
  c1_tile_partition (by decide) (by decide) (by decide)

/-- **C2.** For positive parameters the stitcher computes
`columns = ceil(width/tileSize)` and `rows = ceil(height/tileSize)` (stated
against the exact rational ceiling `pyCeilDiv` of the true division), each
enumerated tile's extent is clipped at the image edges by the `min` formulas,
and at `width = 3184`, `height = 4640`, `tileSize = 1024` the grid has 4
columns, 5 rows, 20 tiles, the last column (at `x = 3*1024`) having width
`112`, not `1024`. -/
theorem c2_grid_dimensions {width height tile_size : ℕ}
    (hW : 0 < width) (hH : 0 < height) (hT : 0 < tile_size) :
    ((cols width tile_size : ℤ) = pyCeilDiv width tile_size ∧
     (rows height tile_size : ℤ) = pyCeilDiv height tile_size) ∧
    (∀ t ∈ tiles width height tile_size,
        t.w = min tile_size (width - t.x) ∧ t.h = min tile_size (height - t.y)) ∧
    (cols 3184 1024 = 4 ∧ rows 4640 1024 = 5 ∧ (tiles 3184 4640 1024).length = 20 ∧
      (∀ t ∈ tiles 3184 4640 1024, t.x = 3 * 1024 → t.w = 112) ∧ (112 : ℕ) ≠ 1024) := by
  refine ⟨⟨cols_cast_eq_pyCeilDiv hT, cols_cast_eq_pyCeilDiv hT⟩, ?_, ?_⟩
  · intro t ht
    obtain ⟨r, hr, c, hc, rfl⟩ := mem_tiles_iff.mp ht
    exact ⟨rfl, rfl⟩
  · refine ⟨by decide, by decide, by decide, by decide, by decide⟩

/-- Witness for C2 at `width = 3184`, `height = 4640`, `tile_size = 1024`. -/
theorem c2_grid_dimensions_witness :
    ((cols 3184 1024 : ℤ) = pyCeilDiv 3184 1024 ∧
     (rows 4640 1024 : ℤ) = pyCeilDiv 4640 1024) ∧
    (∀ t ∈ tiles 3184 4640 1024,
        t.w = min 1024 (3184 - t.x) ∧ t.h = min 1024 (4640 - t.y)) ∧
    (cols 3184 1024 = 4 ∧ rows 4640 1024 = 5 ∧ (tiles 3184 4640 1024).length = 20 ∧
      (∀ t ∈ tiles 3184 4640 1024, t.x = 3 * 1024 → t.w = 112) ∧ (112 : ℕ) ≠ 1024) :=
  c2_grid_dimensions (by decide) (by decide) (by decide)

/-- **C3.** With positive parameters and tile responses that decode at the
requested size (the spec's interface contract for successful tile fetches),
any subset of per-tile fetch failures — every kind the code catches: transport
error, non-success HTTP status via `raise_for_status`, timeout; all are
`RequestException`s, modelled by `fetch` returning `none` — still yields one
output canvas of the full `(width, height)` dimensions in which each failed
tile's region is the background value `0` and each succeeded tile's region
holds that tile's pixels. -/
theorem c3_partial_failure {width height tile_size : ℕ} (image_id : String)
    (fetch : String → Option PImage)
    (hW : 0 < width) (hH : 0 < height) (hT : 0 < tile_size)
    (hdims : ∀ t ∈ tiles width height tile_size, ∀ img,
      fetch (tile_url image_id t) = some img → img.width = t.w ∧ img.height = t.h) :
    (download_and_stitch_iiif_image fetch image_id width height tile_size).width = width ∧
    (download_and_stitch_iiif_image fetch image_id width height tile_size).height = height ∧
    (∀ t ∈ tiles width height tile_size, ∀ i j, coversPixel t i j →
      (download_and_stitch_iiif_image fetch image_id width height tile_size).px i j =
        match fetch (tile_url image_id t) with
        | none => 0
        | some img => img.px (i - t.x) (j - t.y)) := by
  have hdims' := foldl_stitchStep_dims (fun t => fetch (tile_url image_id t))
    (tiles width height tile_size) (Image_new width height)
  refine ⟨hdims'.1, hdims'.2, ?_⟩
  intro t ht i j hcov
  have hsub : ∀ u ∈ tiles width height tile_size, ∀ img,
      fetch (tile_url image_id u) = some img → img.width ≤ u.w ∧ img.height ≤ u.h := by
    intro u hu img himg
    obtain ⟨e1, e2⟩ := hdims u hu img himg
    omega
  have hchar := stitchLoop_px_char (F := fun u => fetch (tile_url image_id u))
    hT hW hH hsub ht hcov
  rw [download_and_stitch_iiif_image, hchar]
  beta_reduce
  cases hF : fetch (tile_url image_id t) with
  | none => rfl
  | some img =>
    obtain ⟨e1, e2⟩ := hdims t ht img hF
    obtain ⟨h1, h2, h3, h4⟩ := hcov
    show (if i < t.x + img.width ∧ j < t.y + img.height
        then img.px (i - t.x) (j - t.y) else 0) = img.px (i - t.x) (j - t.y)
    rw [if_pos ⟨by omega, by omega⟩]

/-- Witness for C3: a 2 × 1 grid where the first tile succeeds at the
requested size and the second fails. -/
theorem c3_partial_failure_witness :
    (download_and_stitch_iiif_image witnessFetch1 "id1" 3 2 2).width = 3 ∧
    (download_and_stitch_iiif_image witnessFetch1 "id1" 3 2 2).height = 2 ∧
    (∀ t ∈ tiles 3 2 2, ∀ i j, coversPixel t i j →
      (download_and_stitch_iiif_image witnessFetch1 "id1" 3 2 2).px i j =
        match witnessFetch1 (tile_url "id1" t) with
        | none => 0
        | some img => img.px (i - t.x) (j - t.y)) := by
  refine c3_partial_failure "id1" witnessFetch1 (by decide) (by decide) (by decide) ?_
  intro t ht img himg
  have htt : t = mkTile 3 2 2 0 0 ∨ t = mkTile 3 2 2 1 0 := by
    have : tiles 3 2 2 = [mkTile 3 2 2 0 0, mkTile 3 2 2 1 0] := by decide
    rw [this] at ht
    simpa using ht
  rcases htt with rfl | rfl
  · rw [witnessFetch1, if_pos rfl] at himg
    obtain rfl := Option.some_inj.mp himg.symm
    exact ⟨rfl, rfl⟩
  · rw [witnessFetch1, if_neg (by decide)] at himg
    exact absurd himg (by simp)

/-- **C4, counterexample.** The single tile of the 2 × 2 image with tile size
2 requests extent (2, 2); the fetched body decodes to a 1 × 1 image of value 7
— a dimension mismatch.  The claim says the mismatch is a `TileDecodeError`
whose tile region is left blank; the code instead pastes the decoded pixels:
the canvas holds 7 at the origin, not the background 0. -/
theorem c4_no_dimension_check_counterexample :
    tiles 2 2 2 = [mkTile 2 2 2 0 0] ∧
    (mkTile 2 2 2 0 0).w = 2 ∧ (mkTile 2 2 2 0 0).h = 2 ∧
    witnessFetch2 (tile_url "id1" (mkTile 2 2 2 0 0)) = some ⟨1, 1, fun _ _ => 7⟩ ∧
    (1 : ℕ) ≠ 2 ∧
    (download_and_stitch_iiif_image witnessFetch2 "id1" 2 2 2).px 0 0 = 7 ∧
    (7 : ℕ) ≠ 0 :=
  ⟨by decide, rfl, rfl, rfl, by decide, by decide, by decide⟩

/-- **C4, amended.** For every tile whose HTTP fetch succeeds, the stitcher
decodes the body and pastes the decoded image at the tile's offset *using the
image's own dimensions*, with no verification against the requested `(w, h)`:
a mismatched (here: not larger than the cell, so that its paste stays inside
the cell) image is composited as-is and the remainder of the cell stays at the
background value 0; no `TileDecodeError` exists.  (A decode failure would
escape the per-tile handler, which catches only `RequestException`.) -/
theorem c4_paste_without_verification {width height tile_size : ℕ} (image_id : String)
    (fetch : String → Option PImage)
    (hW : 0 < width) (hH : 0 < height) (hT : 0 < tile_size)
    (hsub : ∀ t ∈ tiles width height tile_size, ∀ img,
      fetch (tile_url image_id t) = some img → img.width ≤ t.w ∧ img.height ≤ t.h)
    {t : TileRequest} (ht : t ∈ tiles width height tile_size)
    {i j : ℕ} (hcov : coversPixel t i j) :
    (download_and_stitch_iiif_image fetch image_id width height tile_size).px i j =
      match fetch (tile_url image_id t) with
      | none => 0
      | some img =>
        if i < t.x + img.width ∧ j < t.y + img.height
        then img.px (i - t.x) (j - t.y) else 0 := by
  have hchar := stitchLoop_px_char (F := fun u => fetch (tile_url image_id u))
    hT hW hH hsub ht hcov
  rw [download_and_stitch_iiif_image, hchar]

/-- Witness for the amended C4 at the single-tile grid and pixel (0, 0). -/
theorem c4_paste_without_verification_witness :
    (download_and_stitch_iiif_image witnessFetch2 "id1" 2 2 2).px 0 0 =
      match witnessFetch2 (tile_url "id1" (mkTile 2 2 2 0 0)) with
      | none => 0
      | some img =>
        if 0 < (mkTile 2 2 2 0 0).x + img.width ∧ 0 < (mkTile 2 2 2 0 0).y + img.height
        then img.px (0 - (mkTile 2 2 2 0 0).x) (0 - (mkTile 2 2 2 0 0).y) else 0 := by
  refine c4_paste_without_verification "id1" witnessFetch2 (by decide) (by decide) (by decide)
    ?_ (by decide) (by decide)
  intro t ht img himg
  have hts : tiles 2 2 2 = [mkTile 2 2 2 0 0] := by decide
  rw [hts] at ht
  have ht' : t = mkTile 2 2 2 0 0 := by simpa using ht
  subst ht'
  rw [witnessFetch2] at himg
  obtain rfl := Option.some_inj.mp himg.symm
  exact ⟨by decide, by decide⟩

/-- **C5, counterexample.** At `width = 10`, `height = 10`,
`tile_size = -1 ≤ 0` the stitcher rejects nothing: it enumerates no tile,
fetches nothing, and completes normally, saving the background-only canvas
(`InvalidParametersError` does not exist in the code).  And `tile_size = 0`
aborts with an uncaught `ZeroDivisionError` from line 85, not a deliberate
rejection. -/
theorem c5_no_validation_counterexample :
    tilesZ 10 10 (-1) = .ok [] ∧
    stitchZ (fun _ => none) 10 10 (-1) = .ok (fun _ _ => 0) ∧
    tilesZ 10 10 0 = .error .zeroDivisionError := by
  have h := @tilesZ_neg_tile_size 10 10 (-1) (by norm_num) (by norm_num)
  refine ⟨h, ?_, ?_⟩
  · rw [stitchZ, h]
    rfl
  · rw [tilesZ, if_pos rfl]

/-- **C5, amended.** The stitcher itself performs no parameter validation and
has no `InvalidParametersError`; what happens at bad grid inputs is decided
elsewhere.  `tile_size = 0` raises `ZeroDivisionError` during the grid
computation of line 85, before the canvas allocation of line 91 and before any
fetch.  A negative `tile_size` with positive dimensions yields an empty tile
enumeration, no fetch, and a *normally completed* run whose saved canvas is
the untouched background.  A negative width or height aborts with the
`ValueError` that `Image.new` raises at line 91 — after the grid computation,
not a grid-input check.  A zero width or height (the other dimension
nonnegative) enumerates no tiles, fetches nothing, runs the loop to
completion, and aborts only at line 119, where saving the empty canvas as
JPEG raises `ValueError`. -/
theorem c5_no_parameter_validation (fetch : TileRequestZ → Option PImageZ)
    (width height tile_size : ℤ) :
    (tile_size = 0 → stitchZ fetch width height tile_size = .error .zeroDivisionError) ∧
    (tile_size < 0 → 0 < width → 0 < height →
      tilesZ width height tile_size = .ok [] ∧
      stitchZ fetch width height tile_size = .ok (fun _ _ => 0)) ∧
    (tile_size ≠ 0 → (width < 0 ∨ height < 0) →
      stitchZ fetch width height tile_size = .error .valueErrorImageNew) ∧
    (tile_size ≠ 0 → 0 ≤ width → 0 ≤ height → (width = 0 ∨ height = 0) →
      tilesZ width height tile_size = .ok [] ∧
      stitchZ fetch width height tile_size = .error .valueErrorEmptyImageSave) := by
  refine ⟨?_, ?_, ?_, ?_⟩
  · intro h0
    subst h0
    rw [stitchZ, tilesZ, if_pos rfl]
    rfl
  · intro hts hw hh
    have h : tilesZ width height tile_size = .ok [] := tilesZ_neg_tile_size hts hh.le
    refine ⟨h, ?_⟩
    rw [stitchZ, h]
    show (if width < 0 ∨ height < 0 then _ else _) = _
    rw [if_neg (by omega)]
    show (if width = 0 ∨ height = 0 then _ else _) = _
    rw [if_neg (by omega)]
    rfl
  · intro hts hneg
    have h : tilesZ width height tile_size =
        .ok ((pyRange (pyCeilDiv height tile_size)).flatMap fun row_idx =>
          (pyRange (pyCeilDiv width tile_size)).map fun col_idx =>
            { x := col_idx * tile_size, y := row_idx * tile_size
              w := min tile_size (width - col_idx * tile_size)
              h := min tile_size (height - row_idx * tile_size) }) := by
      rw [tilesZ, if_neg hts]
    rw [stitchZ, h]
    show (if width < 0 ∨ height < 0 then _ else _) = _
    rw [if_pos hneg]
  · intro hts hw hh hzero
    have h : tilesZ width height tile_size = .ok [] := by
      rcases lt_trichotomy tile_size 0 with hlt | heq | hgt
      · exact tilesZ_neg_tile_size hlt hh
      · exact absurd heq hts
      · exact tilesZ_nonpos_dim hgt (by omega)
    refine ⟨h, ?_⟩
    rw [stitchZ, h]
    show (if width < 0 ∨ height < 0 then _ else _) = _
    rw [if_neg (by omega)]
    show (if width = 0 ∨ height = 0 then _ else _) = _
    rw [if_pos hzero]

/-- Witness for the amended C5: all four branches at concrete inputs. -/
theorem c5_no_parameter_validation_witness :
    stitchZ witnessFetchZ 10 10 0 = .error .zeroDivisionError ∧
    (tilesZ 10 10 (-1) = .ok [] ∧ stitchZ witnessFetchZ 10 10 (-1) = .ok (fun _ _ => 0)) ∧
    stitchZ witnessFetchZ (-5) 10 5 = .error .valueErrorImageNew ∧
    (tilesZ 0 10 5 = .ok [] ∧
      stitchZ witnessFetchZ 0 10 5 = .error .valueErrorEmptyImageSave) :=
  ⟨(c5_no_parameter_validation witnessFetchZ 10 10 0).1 rfl,
   (c5_no_parameter_validation witnessFetchZ 10 10 (-1)).2.1 (by norm_num) (by norm_num)
     (by norm_num),
   (c5_no_parameter_validation witnessFetchZ (-5) 10 5).2.2.1 (by norm_num)
     (Or.inl (by norm_num)),
   (c5_no_parameter_validation witnessFetchZ 0 10 5).2.2.2 (by norm_num) le_rfl
     (by norm_num) (Or.inl rfl)⟩

/-- **C6.** For every enumerated tile, the fetch URL built at line 103 is
exactly the spec's fixed grammar
`{baseResolverURL}/{imageId}/{x},{y},{w},{h}/{w},/0/default.{format}` with
base `https://www.nb.no/services/image/resolver`, region selector
`"{x},{y},{w},{h}"`, size selector `"{w},"` (height omitted), rotation `0`,
and quality/format `default.jpg` — the loop constructs no other URL shape. -/
theorem c6_tile_url_shape (image_id : String) {width height tile_size : ℕ}
    {t : TileRequest} (ht : t ∈ tiles width height tile_size) :
    tile_url image_id t =
      specTileUrl "https://www.nb.no/services/image/resolver" image_id
        t.x t.y t.w t.h "jpg" := by
  simp only [tile_url, specTileUrl, region, sizeSelector, BASE_IMAGE_RESOLVER_URL]
  rw [show ("https://www.nb.no/services/image/resolver/" : String) =
    "https://www.nb.no/services/image/resolver" ++ "/" by decide]
  simp [String.append_assoc,
    show ("/0/default." : String) ++ "jpg" = "/0/default.jpg" by decide]

/-- Witness for C6 at a concrete enumerated tile. -/
theorem c6_tile_url_shape_witness :
    tile_url "id1" (mkTile 3 2 2 1 0) =
      specTileUrl "https://www.nb.no/services/image/resolver" "id1"
        (mkTile 3 2 2 1 0).x (mkTile 3 2 2 1 0).y
        (mkTile 3 2 2 1 0).w (mkTile 3 2 2 1 0).h "jpg" :=
  @c6_tile_url_shape "id1" 3 2 2 (mkTile 3 2 2 1 0) (by decide)

/-- The item-id extraction step of `get_params_from_url`, isolated: the result
of the function once `path.split('/items/')[1]` is known to exist. -/
theorem get_params_of_isSome {path query : String} {part : List Char}
    (h : (pySplit itemsSep path.toList)[1]? = some part) :
    get_params_from_url path query =
      if ((parseQs query).lookup "page").getD "" = "" then .error .valueErrorMissingPage
      else .ok (String.mk (stripChars part), ((parseQs query).lookup "page").getD "") := by
  rw [get_params_from_url, h]

/-- **C7.** For every input URL whose query string lacks a non-empty `page`
parameter (every `page` value the query parser yields is empty — by
`parseQs_value_ne_empty` it in fact yields none), resolution fails with one of
the two `ValueError`s of `get_params_from_url` (the spec's
`MalformedInputError`) and performs zero network calls: the manifest fetch is
never attempted. -/
theorem c7_missing_page_no_network (fetchManifest : String → Except ScriptError Manifest)
    (path query : String)
    (hq : ∀ v, ("page", v) ∈ parseQs query → v = "") :
    (resolve fetchManifest path query).1 = 0 ∧
    ((resolve fetchManifest path query).2 = .error .valueErrorBadItemsPath ∨
     (resolve fetchManifest path query).2 = .error .valueErrorMissingPage) := by
  have hln : (parseQs query).lookup "page" = none :=
    lookup_eq_none_of_no_entry fun v hv =>
      (parseQs_value_ne_empty query ("page", v) hv) (hq v hv)
  rcases h1 : (pySplit itemsSep path.toList)[1]? with _ | part
  · have hgp : get_params_from_url path query = .error .valueErrorBadItemsPath := by
      rw [get_params_from_url, h1]
    rw [resolve, hgp]
    exact ⟨rfl, Or.inl rfl⟩
  · have hgp : get_params_from_url path query = .error .valueErrorMissingPage := by
      rw [get_params_of_isSome h1, hln]
      rfl
    rw [resolve, hgp]
    exact ⟨rfl, Or.inr rfl⟩

/-- Witness for C7: a URL with an `/items/` path but no `page` parameter. -/
theorem c7_missing_page_no_network_witness :
    (resolve (fun _ => .error .transportError) "/items/abc" "foo=1").1 = 0 ∧
    ((resolve (fun _ => .error .transportError) "/items/abc" "foo=1").2 =
        .error .valueErrorBadItemsPath ∨
     (resolve (fun _ => .error .transportError) "/items/abc" "foo=1").2 =
        .error .valueErrorMissingPage) := by
  refine c7_missing_page_no_network _ "/items/abc" "foo=1" ?_
  intro v hv
  have hp : parseQs "foo=1" = [("foo", "1")] := by decide
  rw [hp] at hv
  simp at hv

/-- **C8.** The stitching pipeline is deterministic and consults the network
only on the enumerated tile URLs: two runs over the same `(image_id, width,
height, tile_size)` whose fetch oracles agree on every enumerated tile's URL
produce equal (hence pixel-identical) canvases; and the tiles are enumerated
in the fixed row-major order — `row` outer over `range rows`, `col` inner over
`range cols`. -/
theorem c8_deterministic_stitch {width height tile_size : ℕ} (image_id : String)
    (fetch₁ fetch₂ : String → Option PImage)
    (hagree : ∀ t ∈ tiles width height tile_size,
      fetch₁ (tile_url image_id t) = fetch₂ (tile_url image_id t)) :
    download_and_stitch_iiif_image fetch₁ image_id width height tile_size =
      download_and_stitch_iiif_image fetch₂ image_id width height tile_size ∧
    (tiles width height tile_size).map (fun t => (t.row, t.col)) =
      ((List.range (rows height tile_size)).flatMap fun r =>
        (List.range (cols width tile_size)).map fun c => (r, c)) := by
  constructor
  · rw [download_and_stitch_iiif_image, download_and_stitch_iiif_image,
      stitchLoop, stitchLoop]
    exact foldl_stitchStep_congr _ _ _ _ hagree
  · rw [tiles, List.map_flatMap]
    refine congrArg _ (funext fun r => ?_)
    rw [List.map_map]
    exact List.map_congr_left fun c _ => rfl

/-- Witness for C8: two syntactically different oracles that agree on the
grid's URLs. -/
theorem c8_deterministic_stitch_witness :
    download_and_stitch_iiif_image witnessFetch1 "id1" 3 2 2 =
      download_and_stitch_iiif_image witnessFetch3 "id1" 3 2 2 ∧
    (tiles 3 2 2).map (fun t => (t.row, t.col)) =
      ((List.range (rows 2 2)).flatMap fun r =>
        (List.range (cols 3 2)).map fun c => (r, c)) := by
  refine c8_deterministic_stitch "id1" witnessFetch1 witnessFetch3 ?_
  intro t ht
  have hts : tiles 3 2 2 = [mkTile 3 2 2 0 0, mkTile 3 2 2 1 0] := by decide
  rw [hts] at ht
  have ht' : t = mkTile 3 2 2 0 0 ∨ t = mkTile 3 2 2 1 0 := by simpa using ht
  rcases ht' with rfl | rfl <;>
    · rw [witnessFetch3, if_neg (by decide)]

/-- The `for` loop returns the extraction of the first label-matching canvas,
whatever follows it. -/
theorem findCanvas_first_match (page_label : String) (c : Canvas) (post : List Canvas) :
    ∀ pre : List Canvas, (∀ c' ∈ pre, c'.label ≠ some page_label) →
      c.label = some page_label →
      findCanvas (pre ++ c :: post) page_label = extractCanvas c := by
  intro pre
  induction pre with
  | nil =>
    intro _ hc
    rw [List.nil_append, findCanvas, if_pos (by rw [hc])]
  | cons p pre' ih =>
    intro hpre hc
    rw [List.cons_append, findCanvas,
      if_neg (by simpa using hpre p (List.mem_cons_self _ _))]
    exact ih (fun c' hc' => hpre c' (List.mem_cons_of_mem _ hc')) hc

/-- **C9.** Manifest resolution inspects only the *first* sequence and returns
the extraction of the *first* canvas whose label equals the requested page
label, reading only that canvas's *first* image entry: the result depends only
on `img` (the first image entry), and on the matched canvas's `width` and
`height` — the later sequences `otherSeqs`, the later canvases `post` and the
later image entries `imgs` are universally quantified and absent from the
right-hand side, hence never consulted. -/
theorem c9_first_match_extraction (page_label : String) (pre : List Canvas) (c : Canvas)
    (post : List Canvas) (otherSeqs : List Sequence) (img : ImageEntry)
    (imgs : List ImageEntry)
    (hpre : ∀ c' ∈ pre, c'.label ≠ some page_label) (hc : c.label = some page_label)
    (himg : c.images = some (img :: imgs)) :
    manifestLookup ⟨some (⟨some (pre ++ c :: post)⟩ :: otherSeqs)⟩ page_label =
      extractImage img c.width c.height := by
  have h1 : firstSequenceCanvases ⟨some (⟨some (pre ++ c :: post)⟩ :: otherSeqs)⟩ =
      .ok (pre ++ c :: post) := rfl
  rw [manifestLookup, h1]
  show findCanvas (pre ++ c :: post) page_label = extractImage img c.width c.height
  rw [findCanvas_first_match page_label c post pre hpre hc, extractCanvas, himg]

/-- Witness for C9: the second canvas matches; a decoy earlier canvas, a later
matching canvas, a second sequence and a second image entry are all present
and ignored. -/
theorem c9_first_match_extraction_witness :
    manifestLookup
        ⟨some (⟨some ([⟨some "40", none, none, none⟩] ++
          ⟨some "41", some (⟨some ⟨some ⟨some "https://api/x/ID9"⟩⟩⟩ :: [⟨none⟩]),
            some 30, some 40⟩ ::
          [⟨some "41", none, none, none⟩])⟩ :: [⟨none⟩])⟩ "41" =
      extractImage ⟨some ⟨some ⟨some "https://api/x/ID9"⟩⟩⟩ (some 30) (some 40) := by
  refine c9_first_match_extraction "41" _ _ _ _ _ _ ?_ (by decide) (by rfl)
  intro c' hc'
  have : c' = (⟨some "40", none, none, none⟩ : Canvas) := by simpa using hc'
  rw [this]
  decide

/-- **C10.** For an input URL whose path ends in `/items/` with nothing after
it (path = `pre ++ "/items/"`, the separator occurring nowhere earlier),
parameter extraction does not fail on the item id: given a non-empty `page`
parameter it succeeds with the *empty string* as the item identifier; and the
malformed-input `ValueError` for the item-identifier part is raised exactly
when the path contains no `/items/` substring at all. -/
theorem c10_empty_item_id :
    (∀ (pre : List Char) (query v : String),
      hasSub itemsSep (pre ++ itemsSep.dropLast) = false →
      (parseQs query).lookup "page" = some v → v ≠ "" →
      get_params_from_url (String.mk (pre ++ itemsSep)) query = .ok ("", v)) ∧
    (∀ path query : String,
      (get_params_from_url path query = .error .valueErrorBadItemsPath ↔
        hasSub itemsSep path.toList = false)) := by
  constructor
  · intro pre query v hsub hlk hv
    have hsplit : pySplit itemsSep (pre ++ itemsSep) = [pre, []] := by
      have h := splitOnFuel_append_sep itemsSep (by decide)
        (pre ++ itemsSep).length pre [] le_rfl hsub
      simpa [pySplit] using h
    have hget : (pySplit itemsSep (String.mk (pre ++ itemsSep)).toList)[1]? = some [] := by
      show (pySplit itemsSep (pre ++ itemsSep))[1]? = some []
      rw [hsplit]
      rfl
    rw [get_params_of_isSome hget, hlk]
    show (if v = "" then _ else _) = _
    rw [if_neg hv]
    rfl
  · intro path query
    constructor
    · intro h
      by_contra hT
      have hT' : hasSub itemsSep path.toList = true := by
        simpa using hT
      have hs := pySplit_getElemOne_isSome_iff itemsSep (by decide) path.toList
      rw [hT'] at hs
      obtain ⟨part, hp⟩ := Option.isSome_iff_exists.mp hs
      rw [get_params_of_isSome hp] at h
      by_cases hpn : ((parseQs query).lookup "page").getD "" = ""
      · rw [if_pos hpn] at h
        exact absurd (Except.error.inj h) (by decide)
      · rw [if_neg hpn] at h
        exact Except.noConfusion h
    · intro hF
      have h := splitOnFuel_of_not_hasSub itemsSep path.toList.length path.toList [] le_rfl hF
      have hsplit : pySplit itemsSep path.toList = [path.toList] := by
        simpa [pySplit] using h
      rw [get_params_from_url, hsplit]
      rfl

/-- Witness for C10: the path `/items/` itself, and a path without `/items/`. -/
theorem c10_empty_item_id_witness :
    get_params_from_url (String.mk (([] : List Char) ++ itemsSep)) "page=3" = .ok ("", "3") ∧
    (get_params_from_url "/books/abc" "page=3" = .error .valueErrorBadItemsPath ↔
      hasSub itemsSep ("/books/abc" : String).toList = false) :=
  ⟨c10_empty_item_id.1 [] "page=3" "3" (by decide) (by decide) (by decide),
   c10_empty_item_id.2 "/books/abc" "page=3"⟩

end NbScrape
